import Mathlib

/-
Verification of the Abelana social-photo backend, `endpoints/server.go`.

The Document Store (App Engine datastore) is modelled as an association list
from keys to entities: `dsGet` is `datastore.Get`, `dsPut` is `datastore.Put`
(replace the entity at an existing key, otherwise insert), `dsDelete` is
`datastore.Delete`.  A transaction body that fails before any write leaves the
store unchanged (`RunInTransaction` rollback); successive `Put`s inside one
transaction to the same key behave as last-write-wins at commit, which the
sequential application of `dsPut` reproduces, because in the code under study
every read happens before the first write.  Store writes themselves are
modelled as always succeeding; entity-lookup failures (the error mode the
claims are about) are modelled by the key being absent.
-/

namespace Abelana

/-- `User` entity, from `server.go`: identity, profile, and the three
relationship lists of the Graph Engine. -/
structure User where
  UserID        : String
  DisplayName   : String
  Email         : String
  FollowsMe     : List String
  IFollow       : List String
  IWantToFollow : List String
deriving DecidableEq, Repr

/-- Go's zero value for `User` (what `var u User` starts as). -/
def zeroUser : User := { UserID := "", DisplayName := "", Email := "",
                         FollowsMe := [], IFollow := [], IWantToFollow := [] }

/-- `Photo` entity: `PhotoID` and creation `Date` (int64 Unix time). -/
structure Photo where
  PhotoID : String
  Date    : Int
deriving DecidableEq, Repr

/-- `ToLike` entity: a Like child of a Photo, holding the liker's UserID. -/
structure ToLike where
  UserID : String
deriving DecidableEq, Repr

/-- `Comment` entity: child of a Photo, keyed by its timestamp. -/
structure Comment where
  PersonID : String
  Text     : String
  Time     : Int
deriving DecidableEq, Repr

/-- `Status` reply (`abelana#status` / `ok`). -/
structure Status where
  Kind   : String
  Status : String
deriving DecidableEq, Repr

/-- `replyOk` sends this. -/
def okStatus : Status := { Kind := "abelana#status", Status := "ok" }

/-- `TLEntry`: a timeline entry, the read-time projection built by
`profileForUser`. -/
structure TLEntry where
  Created : Int
  UserID  : String
  Name    : String
  PhotoID : String
  Likes   : Int
  ILike   : Bool
deriving DecidableEq, Repr

/-- `Stats`: the counts returned by `Statistics`. -/
structure Stats where
  Following : Int
  Followers : Int
deriving DecidableEq, Repr

/-- Document Store `Get`: the entity stored at key `k`, if any. -/
def dsGet {κ α : Type} [DecidableEq κ] : List (κ × α) → κ → Option α
  | [], _ => none
  | (k', v) :: rest, k => if k' = k then some v else dsGet rest k

/-- Document Store `Put`: replace the entity at an existing key, otherwise
append the new entity. -/
def dsPut {κ α : Type} [DecidableEq κ] : List (κ × α) → κ → α → List (κ × α)
  | [], k, v => [(k, v)]
  | (k', v') :: rest, k, v =>
      if k' = k then (k, v) :: rest else (k', v') :: dsPut rest k v

/-- Document Store `Delete`: remove the entity at key `k` (removing a key that
is not present succeeds and changes nothing, as in the datastore). -/
def dsDelete {κ α : Type} [DecidableEq κ] (s : List (κ × α)) (k : κ) : List (κ × α) :=
  s.filter (fun e => decide (e.1 ≠ k))

/-- The User table: "User" kind entities keyed by their string id. -/
abbrev UserStore : Type := List (String × User)

/-- Photo children keyed by (owner User key, PhotoID) — the ancestor path
`User >> Photo`. -/
abbrev PhotoStore : Type := List ((String × String) × Photo)

/-- Like children keyed by (owner User key, PhotoID, liker UserID) — the
ancestor path `User >> Photo >> Like`. -/
abbrev LikeStore : Type := List ((String × String × String) × ToLike)

/-- Comment children keyed by (owner User key, PhotoID, timestamp) — the
ancestor path `User >> Photo >> Comments`. -/
abbrev CommentStore : Type := List ((String × String × Int) × Comment)

/-- `uniqueP` from `server.go`: true when `item` does not yet occur in
`list` (linear scan with early exit). -/
def uniqueP : List String → String → Bool
  | [], _ => true
  | itm :: rest, item => if itm = item then false else uniqueP rest item

theorem dsGet_dsPut_self {κ α : Type} [DecidableEq κ] (s : List (κ × α)) (k : κ) (v : α) :
    dsGet (dsPut s k v) k = some v := by
  induction s with
  | nil => simp [dsPut, dsGet]
  | cons e rest ih =>
      obtain ⟨k', v'⟩ := e
      by_cases h : k' = k <;> simp [dsPut, dsGet, h, ih]

theorem dsGet_dsPut_ne {κ α : Type} [DecidableEq κ] (s : List (κ × α)) (k k' : κ) (v : α)
    (h : k' ≠ k) : dsGet (dsPut s k v) k' = dsGet s k' := by
  have h' : k ≠ k' := Ne.symm h
  induction s with
  | nil => simp [dsPut, dsGet, h']
  | cons e rest ih =>
      obtain ⟨k₀, v₀⟩ := e
      by_cases h0 : k₀ = k
      · subst h0
        simp [dsPut, dsGet, h']
      · simp [dsPut, dsGet, h0, ih]

theorem mem_dsPut {κ α : Type} [DecidableEq κ] {s : List (κ × α)} {k : κ} {v : α} {e : κ × α}
    (h : e ∈ dsPut s k v) : e = (k, v) ∨ e ∈ s := by
  revert h
  induction s with
  | nil =>
      intro h
      simpa [dsPut] using h
  | cons e₀ rest ih =>
      obtain ⟨k₀, v₀⟩ := e₀
      intro h
      by_cases h0 : k₀ = k
      · subst h0
        simp [dsPut] at h
        rcases h with h | h
        · exact Or.inl h
        · exact Or.inr (List.mem_cons_of_mem _ h)
      · simp [dsPut, h0] at h
        rcases h with h | h
        · exact Or.inr (h ▸ List.mem_cons_self _ _)
        · rcases ih h with h' | h'
          · exact Or.inl h'
          · exact Or.inr (List.mem_cons_of_mem _ h')

theorem dsPut_dsPut_same {κ α : Type} [DecidableEq κ] (s : List (κ × α)) (k : κ) (v : α) :
    dsPut (dsPut s k v) k v = dsPut s k v := by
  induction s with
  | nil => simp [dsPut]
  | cons e rest ih =>
      obtain ⟨k₀, v₀⟩ := e
      by_cases h0 : k₀ = k <;> simp [dsPut, h0, ih]

/-- `followById` from `server.go`.  The cross-group transaction reads both
User records (both reads precede both writes in the source), then performs the
two guarded appends.  On a failed lookup the body returns an error before any
write, so `RunInTransaction` leaves the store unchanged and the error is
returned — modelled by the `(s, some msg)` results.  Successive `Put`s inside
the transaction commit last-write-wins, which the sequential `dsPut`s
reproduce.  The post-commit `delayINowFollow.Call` enqueues a redis-side
notification task; it does not touch the Document Store and is outside the
stored state modelled here. -/
def followById (s : UserStore) (userID followingID : String) : UserStore × Option String :=
  match dsGet s userID with
  | none => (s, some <| "getMe " ++ userID ++ " " ++ followingID)
  | some user =>
    match dsGet s followingID with
    | none => (s, some <| "getFollowed " ++ followingID ++ " " ++ userID)
    | some followed =>
      let s1 := if uniqueP user.IFollow followingID then
          dsPut s userID { user with IFollow := user.IFollow ++ [followingID] }
        else s
      let s2 := if uniqueP followed.FollowsMe userID then
          dsPut s1 followingID { followed with FollowsMe := followed.FollowsMe ++ [userID] }
        else s1
      (s2, none)

/-- The stored state after calling `followById` n times in a row with the same
pair, each call reading the state the previous call left. -/
def followByIdN : Nat → UserStore → String → String → UserStore
  | 0, s, _, _ => s
  | n + 1, s, a, b => followByIdN n (followById s a b).1 a b

/-- Modelled from the spec: `findUser` is defined in this repository outside
`src/` (only its callers are here).  Per the spec it resolves a userID to the
caller's own User record through a Document Store lookup and fails with a
NotFound error when no such User exists. -/
def findUser (s : UserStore) (id : String) : Except String User :=
  match dsGet s id with
  | some u => Except.ok u
  | none => Except.error <| "findUser " ++ id

/-- `Statistics` from `server.go`, as the sequence of JSON replies written to
the response.  After a failed lookup the handler writes the degraded
`{-1,-1}` reply but does not return; it falls through and also writes the
counts of the zero-value `u`.  (`findUser` is modelled with value semantics:
on failure `u` keeps Go's zero value, making the second reply `{0,0}`; if the
out-of-src `findUser` returns a nil pointer instead, the fall-through
dereference panics — either way a second outcome follows the degraded
reply.) -/
def Statistics (s : UserStore) (callerID : String) : List Stats :=
  match findUser s callerID with
  | Except.error _ =>
      [ { Following := -1, Followers := -1 },
        { Following := (zeroUser.IFollow.length : Int),
          Followers := (zeroUser.FollowsMe.length : Int) } ]
  | Except.ok u =>
      [ { Following := (u.IFollow.length : Int),
          Followers := (u.FollowsMe.length : Int) } ]

/-- `Follow` from `server.go` (stored state only; every path replies ok).
`decodeSegment` runs upstream and is outside `src/`: `email` here is the
decoded address.  The keys-only query on `Email =` is the store filter over
User entities.  When a user is found, the handler delegates to `followById`
on the first key; otherwise it runs the intent-recording transaction
(`findUser` failing inside the transaction aborts it before any write). -/
def Follow (s : UserStore) (callerID email : String) : UserStore :=
  let keys := (s.filter (fun e => e.2.Email == email)).map (fun e => e.1)
  match keys with
  | k :: _ => (followById s callerID k).1
  | [] =>
    match findUser s callerID with
    | Except.error _ => s
    | Except.ok user =>
      if uniqueP user.IWantToFollow email then
        dsPut s callerID { user with IWantToFollow := user.IWantToFollow ++ [email] }
      else s

/-- The keys-only membership query `Filter("IWantToFollow =", email)`: the
keys of all Users whose `IWantToFollow` list contains `email` (datastore
equality filters on a list property test membership). -/
def queryIWantToFollow (s : UserStore) (email : String) : List String :=
  (s.filter (fun e => e.2.IWantToFollow.contains email)).map (fun e => e.1)

/-- `findFollows` from `server.go`.  The outcome of the membership query is
passed in as `queryResult` (for a live store `s` it is
`Except.ok (queryIWantToFollow s email)`; `Except.error` models the query
failing, e.g. store unavailable).  On success it enqueues one deferred
`followById(key, userID)` task per returned key; on failure it returns the
wrapped error and enqueues nothing. -/
def findFollows (queryResult : Except String (List String)) (userID : String) :
    Except String (List (String × String)) :=
  match queryResult with
  | Except.error e => Except.error <| "findFollows: GetAll " ++ e
  | Except.ok keys => Except.ok (keys.map (fun key => (key, userID)))

/-- `strconv.ParseInt(s, 10, 64)`: optional sign, at least one decimal digit,
result within the int64 range; `none` models a parse error (in the Go code the
shadowed `lastDate` is then 0). -/
def parseInt64 (s : String) : Option Int :=
  let cs := s.data
  let signAndDigits : Bool × List Char :=
    match cs with
    | '-' :: rest => (true, rest)
    | '+' :: rest => (false, rest)
    | _ => (false, cs)
  let ds := signAndDigits.2
  let mag : Option Nat :=
    if ds.isEmpty then none
    else ds.foldl (fun acc c =>
      match acc with
      | none => none
      | some n => if c.isDigit then some (n * 10 + (c.toNat - 48)) else none) (some 0)
  match mag with
  | none => none
  | some n =>
    let v : Int := if signAndDigits.1 then -(n : Int) else (n : Int)
    if v < -(2 ^ 63) ∨ (2 ^ 63 - 1) < v then none else some v

/-- Insert a photo into a list sorted by descending `Date`. -/
def insertByDateDesc (p : Photo) : List Photo → List Photo
  | [] => [p]
  | q :: qs => if q.Date ≤ p.Date then p :: q :: qs else q :: insertByDateDesc p qs

/-- `Order("-Date")`: sort photos by descending `Date`. -/
def sortByDateDesc : List Photo → List Photo
  | [] => []
  | p :: ps => insertByDateDesc p (sortByDateDesc ps)

/-- Document Store query over a user's Photo children:
`NewQuery("Photo").Ancestor(k)` plus an optional `Filter(filterStr, value)`,
then `Order("-Date").Limit(limit)` and `GetAll`.  As in the appengine SDK's
`Query.Filter`, a filter string that is empty after trimming (no field name,
no operator — e.g. the `Filter("", lastDate)` call in `profileForUser`)
poisons the query, so `GetAll` returns the error and appends nothing; the
well-formed `"Date <"` filter keeps photos with `Date` strictly below the
value. -/
def photoQuery (ps : PhotoStore) (ancestor : String) (filt : Option (String × Int))
    (limit : Nat) : Except String (List Photo) :=
  let kids := (ps.filter (fun e => e.1.1 == ancestor)).map (fun e => e.2)
  match filt with
  | none => Except.ok ((sortByDateDesc kids).take limit)
  | some (fs, v) =>
    if fs.trim = "" then Except.error "datastore: invalid filter"
    else if fs = "Date <" then
      Except.ok ((sortByDateDesc (kids.filter (fun p => decide (p.Date < v)))).take limit)
    else Except.error <| "datastore: invalid operator in filter " ++ fs

/-- `profileForUser` from `server.go`, returning the Go function's
`([]TLEntry, error)` pair.  Every failure is only logged: a failed user `Get`
leaves `u` the zero value, a cursor parse failure leaves the shadowed
`lastDate` 0, and a failed `GetAll` leaves `photos` nil; the function always
returns `(tl, nil)`.  When the cursor is neither empty nor "0" the source
applies `q.Filter("", lastDate)` — filter string `""`, not `"Date <"`. -/
def profileForUser (us : UserStore) (ps : PhotoStore) (batchSize : Nat)
    (userID lastDate : String) : List TLEntry × Option String :=
  let u := (dsGet us userID).getD zeroUser
  let filt : Option (String × Int) :=
    if lastDate ≠ "" ∧ lastDate ≠ "0" then
      some ( "", (parseInt64 lastDate).getD 0)
    else none
  let photos := (photoQuery ps userID filt batchSize).toOption.getD []
  (photos.map (fun p =>
    { Created := p.Date, UserID := userID, Name := u.DisplayName,
      PhotoID := p.PhotoID, Likes := -1, ILike := false }), none)

/-- Split a list of characters at every '.', as Go's
`strings.Split(s, ".")` does on the underlying bytes. -/
def splitChars : List Char → List Char → List (List Char)
  | [], acc => [acc.reverse]
  | c :: cs, acc =>
      if c = '.' then acc.reverse :: splitChars cs [] else splitChars cs (c :: acc)

/-- Go's `strings.Split(s, ".")`: the segments of `s` between the dots
(an empty string yields one empty segment, `"a.b"` yields two, `"a.b.c"`
three). -/
def splitOnDot (s : String) : List String :=
  (splitChars s.data []).map String.mk

/-- `Like` from `server.go` (Document Store part and reply).  A photoid that
does not split on "." into exactly two segments is answered with ok before
anything runs.  Otherwise the Like child keyed by the liker's UserID under
`User(s[0]) >> Photo(photoid)` is written.  The `like(cx, at.ID(), photoID)`
call preceding the put updates the redis counters, which are outside the
Document Store modelled here. -/
def Like (ls : LikeStore) (callerID photoidParam : String) : LikeStore × Status :=
  match splitOnDot photoidParam with
  | [userID, _suffix] =>
      let photoID := photoidParam
      (dsPut ls (userID, photoID, callerID) { UserID := callerID }, okStatus)
  | _ => (ls, okStatus)

/-- `Unlike` from `server.go` (Document Store part and reply): the malformed
shape is answered with ok untouched; otherwise the Like child at the caller's
key is deleted (deleting an absent key succeeds).  The redis-side `unlike`
call is outside the modelled store. -/
def Unlike (ls : LikeStore) (callerID photoidParam : String) : LikeStore × Status :=
  match splitOnDot photoidParam with
  | [userID, _suffix] =>
      let photoID := photoidParam
      (dsDelete ls (userID, photoID, callerID), okStatus)
  | _ => (ls, okStatus)

/-- `SetPhotoComments` from `server.go`: malformed photoids are answered with
ok untouched; otherwise a Comment keyed by the current time `tod` (passed in
as a parameter here) is written under `User(s[0]) >> Photo(photoid)`. -/
def SetPhotoComments (cs : CommentStore) (callerID photoidParam textParam : String)
    (tod : Int) : CommentStore × Status :=
  match splitOnDot photoidParam with
  | [userID, _suffix] =>
      let photoID := photoidParam
      (dsPut cs (userID, photoID, tod) { PersonID := callerID, Text := textParam, Time := tod },
        okStatus)
  | _ => (cs, okStatus)

theorem uniqueP_eq_true_iff (l : List String) (x : String) :
    uniqueP l x = true ↔ x ∉ l := by
  induction l with
  | nil => simp [uniqueP]
  | cons a l ih =>
      by_cases h : a = x
      · subst h; simp [uniqueP]
      · have h' : x ≠ a := fun hh => h hh.symm
        simp [uniqueP, h, ih, h']

theorem uniqueP_eq_false_iff (l : List String) (x : String) :
    uniqueP l x = false ↔ x ∈ l := by
  rw [← Bool.not_eq_true, uniqueP_eq_true_iff, not_not]

theorem mem_of_dsGet {κ α : Type} [DecidableEq κ] {s : List (κ × α)} {k : κ} {u : α}
    (h : dsGet s k = some u) : (k, u) ∈ s := by
  induction s with
  | nil => simp [dsGet] at h
  | cons e rest ih =>
      obtain ⟨k₀, v₀⟩ := e
      by_cases h0 : k₀ = k
      · subst h0
        simp [dsGet] at h
        simp [h]
      · simp only [dsGet, if_neg h0] at h
        exact List.mem_cons_of_mem _ (ih h)

theorem nodup_append_singleton {α : Type} {l : List α} {x : α} (hx : x ∉ l) (hl : l.Nodup) :
    (l ++ [x]).Nodup := by
  simp [List.nodup_append, hl, hx]

/-- The §3 invariant: every stored User record keeps duplicate-free
`IFollow` and `FollowsMe` lists. -/
def storeListsNodup (s : UserStore) : Prop :=
  ∀ e ∈ s, e.2.IFollow.Nodup ∧ e.2.FollowsMe.Nodup

instance (s : UserStore) : Decidable (storeListsNodup s) :=
  inferInstanceAs (Decidable (∀ e ∈ s, e.2.IFollow.Nodup ∧ e.2.FollowsMe.Nodup))

theorem storeListsNodup_dsPut {s : UserStore} {k : String} {v : User}
    (hs : storeListsNodup s) (hv : v.IFollow.Nodup ∧ v.FollowsMe.Nodup) :
    storeListsNodup (dsPut s k v) := by
  intro e he
  rcases mem_dsPut he with rfl | he'
  · exact hv
  · exact hs e he'

theorem followById_stable {s : UserStore} {a b : String} {ua ub : User}
    (ha : dsGet s a = some ua) (hb : dsGet s b = some ub)
    (h1 : b ∈ ua.IFollow) (h2 : a ∈ ub.FollowsMe) :
    followById s a b = (s, none) := by
  have hu : uniqueP ua.IFollow b = false := (uniqueP_eq_false_iff _ _).2 h1
  have hf : uniqueP ub.FollowsMe a = false := (uniqueP_eq_false_iff _ _).2 h2
  simp [followById, ha, hb, hu, hf]

theorem followById_get_of_distinct {s : UserStore} {a b : String} {ua ub : User}
    (hab : a ≠ b) (ha : dsGet s a = some ua) (hb : dsGet s b = some ub) :
    dsGet (followById s a b).1 a
        = some { ua with
            IFollow := if uniqueP ua.IFollow b then ua.IFollow ++ [b] else ua.IFollow } ∧
    dsGet (followById s a b).1 b
        = some { ub with
            FollowsMe := if uniqueP ub.FollowsMe a then ub.FollowsMe ++ [a] else ub.FollowsMe } ∧
    (followById s a b).2 = none := by
  have hba : b ≠ a := Ne.symm hab
  by_cases hu : uniqueP ua.IFollow b = true
  · by_cases hf : uniqueP ub.FollowsMe a = true
    · refine ⟨?_, ?_, ?_⟩ <;>
        simp [followById, ha, hb, hu, hf, dsGet_dsPut_self, dsGet_dsPut_ne _ _ _ _ hab,
          dsGet_dsPut_ne _ _ _ _ hba]
    · have hf' : uniqueP ub.FollowsMe a = false := by
        rcases Bool.eq_false_or_eq_true (uniqueP ub.FollowsMe a) with h | h
        · exact absurd h hf
        · exact h
      refine ⟨?_, ?_, ?_⟩ <;>
        simp [followById, ha, hb, hu, hf', dsGet_dsPut_self, dsGet_dsPut_ne _ _ _ _ hab,
          dsGet_dsPut_ne _ _ _ _ hba, hb]
  · have hu' : uniqueP ua.IFollow b = false := by
      rcases Bool.eq_false_or_eq_true (uniqueP ua.IFollow b) with h | h
      · exact absurd h hu
      · exact h
    by_cases hf : uniqueP ub.FollowsMe a = true
    · refine ⟨?_, ?_, ?_⟩ <;>
        simp [followById, ha, hb, hu', hf, dsGet_dsPut_self, dsGet_dsPut_ne _ _ _ _ hab,
          dsGet_dsPut_ne _ _ _ _ hba, ha]
    · have hf' : uniqueP ub.FollowsMe a = false := by
        rcases Bool.eq_false_or_eq_true (uniqueP ub.FollowsMe a) with h | h
        · exact absurd h hf
        · exact h
      refine ⟨?_, ?_, ?_⟩ <;> simp [followById, ha, hb, hu', hf', ha, hb]

theorem followByIdN_fixed {s : UserStore} {a b : String} {ua ub : User}
    (ha : dsGet s a = some ua) (hb : dsGet s b = some ub)
    (h1 : b ∈ ua.IFollow) (h2 : a ∈ ub.FollowsMe) :
    ∀ n, followByIdN n s a b = s := by
  intro n
  induction n with
  | zero => rfl
  | succ m ih => simp [followByIdN, followById_stable ha hb h1 h2, ih]

/-- C1 (amended): for every pair of DISTINCT existing users A ≠ B whose
record lists hold B (resp. A) at most once, calling `followById(A, B)` N
times (N ≥ 1) leaves the stored state identical to calling it once, and
afterwards B appears exactly once in A.IFollow and A exactly once in
B.FollowsMe.  (The distinctness restriction is forced: for A = B the two
buffered writes of the transaction hit the same key and the second overwrites
the first, so the second call changes state again — see the
counterexample.) -/
theorem followById_idempotent_of_distinct (s : UserStore) (a b : String) (ua ub : User)
    (n : Nat) (hab : a ≠ b) (ha : dsGet s a = some ua) (hb : dsGet s b = some ub)
    (hca : ua.IFollow.count b ≤ 1) (hcb : ub.FollowsMe.count a ≤ 1) (hn : 1 ≤ n) :
    followByIdN n s a b = followByIdN 1 s a b ∧
    ∃ ua' ub',
      dsGet (followByIdN 1 s a b) a = some ua' ∧
      dsGet (followByIdN 1 s a b) b = some ub' ∧
      ua'.IFollow.count b = 1 ∧ ub'.FollowsMe.count a = 1 := by
  obtain ⟨ga, gb, -⟩ := followById_get_of_distinct hab ha hb
  have hcount1 :
      ({ ua with IFollow := if uniqueP ua.IFollow b then ua.IFollow ++ [b]
          else ua.IFollow } : User).IFollow.count b = 1 := by
    cases hu : uniqueP ua.IFollow b with
    | true =>
        have hnm : b ∉ ua.IFollow := (uniqueP_eq_true_iff _ _).1 hu
        simp [List.count_append, List.count_eq_zero.2 hnm]
    | false =>
        have hm : b ∈ ua.IFollow := (uniqueP_eq_false_iff _ _).1 hu
        have hpos := List.count_pos_iff.2 hm
        show ua.IFollow.count b = 1
        omega
  have hcount2 :
      ({ ub with FollowsMe := if uniqueP ub.FollowsMe a then ub.FollowsMe ++ [a]
          else ub.FollowsMe } : User).FollowsMe.count a = 1 := by
    cases hf : uniqueP ub.FollowsMe a with
    | true =>
        have hnm : a ∉ ub.FollowsMe := (uniqueP_eq_true_iff _ _).1 hf
        simp [List.count_append, List.count_eq_zero.2 hnm]
    | false =>
        have hm : a ∈ ub.FollowsMe := (uniqueP_eq_false_iff _ _).1 hf
        have hpos := List.count_pos_iff.2 hm
        show ub.FollowsMe.count a = 1
        omega
  have hmem1 : b ∈ ({ ua with IFollow := if uniqueP ua.IFollow b then ua.IFollow ++ [b]
      else ua.IFollow } : User).IFollow :=
    List.count_pos_iff.1 (by rw [hcount1]; exact Nat.one_pos)
  have hmem2 : a ∈ ({ ub with FollowsMe := if uniqueP ub.FollowsMe a then ub.FollowsMe ++ [a]
      else ub.FollowsMe } : User).FollowsMe :=
    List.count_pos_iff.1 (by rw [hcount2]; exact Nat.one_pos)
  have hfix := followByIdN_fixed ga gb hmem1 hmem2
  have h1 : followByIdN 1 s a b = (followById s a b).1 := by simp [followByIdN]
  obtain ⟨m, rfl⟩ : ∃ m, n = m + 1 := ⟨n - 1, by omega⟩
  refine ⟨?_, ?_⟩
  · calc followByIdN (m + 1) s a b
        = followByIdN m (followById s a b).1 a b := by rw [followByIdN]
      _ = (followById s a b).1 := hfix m
      _ = followByIdN 1 s a b := h1.symm
  · refine ⟨_, _, ?_, ?_, hcount1, hcount2⟩
    · rw [h1]; exact ga
    · rw [h1]; exact gb

/-- Fixture: a user with empty relationship lists. -/
def aliceU : User := { UserID := "alice", DisplayName := "Alice", Email := "alice@example.com",
                       FollowsMe := [], IFollow := [], IWantToFollow := [] }

/-- Fixture: a second user with empty relationship lists. -/
def bobU : User := { UserID := "bob", DisplayName := "Bob", Email := "bob@example.com",
                     FollowsMe := [], IFollow := [], IWantToFollow := [] }

/-- Fixture: a store with the two users. -/
def pairStore : UserStore := [( "alice", aliceU), ( "bob", bobU)]

/-- Fixture: a store with only one user. -/
def selfStore : UserStore := [( "alice", aliceU)]

/-- C1 witness: the amended idempotence at a concrete store, N = 3. -/
theorem followById_idempotent_of_distinct_witness :
    followByIdN 3 pairStore "alice" "bob" = followByIdN 1 pairStore "alice" "bob" ∧
    ∃ ua' ub',
      dsGet (followByIdN 1 pairStore "alice" "bob") "alice" = some ua' ∧
      dsGet (followByIdN 1 pairStore "alice" "bob") "bob" = some ub' ∧
      ua'.IFollow.count "bob" = 1 ∧ ub'.FollowsMe.count "alice" = 1 :=
  followById_idempotent_of_distinct pairStore "alice" "bob" aliceU bobU 3 (by decide)
    (by decide) (by decide) (by decide) (by decide) (by decide)

/-- C1 counterexample: with A = B ("every pair" taken literally) the claim
fails.  On an existing user "alice" with empty lists, the first
`followById("alice","alice")` loses the IFollow write (the second buffered
put to the same key overwrites it), so the second call changes the stored
state again: N = 2 calls do not leave the state of 1 call, and after one call
"alice" appears zero times — not exactly once — in her own IFollow. -/
theorem followById_self_call_twice_differs :
    followByIdN 2 selfStore "alice" "alice" ≠ followByIdN 1 selfStore "alice" "alice" ∧
    (dsGet (followByIdN 1 selfStore "alice" "alice") "alice").map
        (fun u => u.IFollow.count "alice") = some 0 := by
  decide

/-- C4: if either identifier does not resolve to an existing User entity,
`followById` returns an error and performs no datastore writes — the whole
User table (both User records in particular) is left unchanged, because the
transaction body fails on a `Get` before reaching any `Put` and
`RunInTransaction` rolls back. -/
theorem followById_lookup_failure_no_writes (s : UserStore) (userID followingID : String)
    (h : dsGet s userID = none ∨ dsGet s followingID = none) :
    (followById s userID followingID).1 = s ∧
    ((followById s userID followingID).2).isSome = true := by
  rcases h with h | h
  · simp [followById, h]
  · cases hu : dsGet s userID with
    | none => simp [followById, hu]
    | some user => simp [followById, hu, h]

/-- C4 witness: a store where the followed user "ghost" does not exist. -/
theorem followById_lookup_failure_no_writes_witness :
    (followById selfStore "alice" "ghost").1 = selfStore ∧
    ((followById selfStore "alice" "ghost").2).isSome = true :=
  followById_lookup_failure_no_writes selfStore "alice" "ghost" (Or.inr (by decide))

/-- C3: when the lookup succeeds, `Statistics` replies once with
`{len(IFollow), len(FollowsMe)}`; when it fails, the handler writes the
degraded `{-1,-1}` reply but — lacking a `return` — falls through and writes
a second reply from the zero-value user, so the response is NOT the single
degraded value the claim states. -/
theorem Statistics_replies (s : UserStore) (callerID : String) :
    (dsGet s callerID = none →
      Statistics s callerID
        = [{ Following := -1, Followers := -1 }, { Following := 0, Followers := 0 }]) ∧
    (∀ u, dsGet s callerID = some u →
      Statistics s callerID
        = [{ Following := (u.IFollow.length : Int),
             Followers := (u.FollowsMe.length : Int) }]) := by
  constructor
  · intro h
    simp [Statistics, findUser, h, zeroUser]
  · intro u h
    simp [Statistics, findUser, h]

/-- C3 witness: both branches at a concrete store — the absent caller "ghost"
receives two replies, the present caller "alice" one. -/
theorem Statistics_replies_witness :
    Statistics selfStore "ghost"
        = [{ Following := -1, Followers := -1 }, { Following := 0, Followers := 0 }] ∧
    Statistics selfStore "alice"
        = [{ Following := (aliceU.IFollow.length : Int),
             Followers := (aliceU.FollowsMe.length : Int) }] :=
  ⟨(Statistics_replies selfStore "ghost").1 (by decide),
   (Statistics_replies selfStore "alice").2 aliceU (by decide)⟩

/-- C2: whenever a cursor is supplied (`lastDate` neither empty nor "0"),
`profileForUser` returns the empty page no matter what photos the user has:
the source builds the query with `Filter("", lastDate)` — an invalid filter
(empty field/operator string) — so `GetAll` fails and `photos` stays nil,
instead of the `Date < T` page the spec describes. -/
theorem profileForUser_cursor_returns_empty (us : UserStore) (ps : PhotoStore)
    (batchSize : Nat) (userID lastDate : String)
    (h1 : lastDate ≠ "") (h2 : lastDate ≠ "0") :
    (profileForUser us ps batchSize userID lastDate).1 = [] := by
  simp [profileForUser, photoQuery, h1, h2]
  split <;> rfl

/-- C2 witness: the user owns a photo with Date 5 and the cursor is "10";
the claim expects that photo (5 < 10) on the page, but the code returns the
empty page. -/
theorem profileForUser_cursor_returns_empty_witness :
    (profileForUser selfStore
        [(( "alice", "alice.p1"), { PhotoID := "alice.p1", Date := 5 })]
        300 "alice" "10").1 = [] :=
  profileForUser_cursor_returns_empty selfStore
    [(( "alice", "alice.p1"), { PhotoID := "alice.p1", Date := 5 })]
    300 "alice" "10" (by decide) (by decide)

/-- C9: `profileForUser` returns a nil error on every input — all its failure
paths (user lookup, cursor parse, photo query) only log and continue, and the
one return statement returns `(tl, nil)`. -/
theorem profileForUser_never_errors (us : UserStore) (ps : PhotoStore)
    (batchSize : Nat) (userID lastDate : String) :
    (profileForUser us ps batchSize userID lastDate).2 = none := rfl

/-- C10: liking is idempotent on the stored Like set.  The Like entity's key
under the photo is the liker's UserID, so a second call of the `Like` handler
by the same user for the same photo puts to the same key and overwrites the
same entity, leaving the set of Like children — hence the derived like
count — unchanged. -/
theorem Like_idempotent (ls : LikeStore) (callerID photoidParam : String) :
    (Like (Like ls callerID photoidParam).1 callerID photoidParam).1
      = (Like ls callerID photoidParam).1 := by
  cases hs : splitOnDot photoidParam with
  | nil => simp [Like, hs]
  | cons a t =>
    cases t with
    | nil => simp [Like, hs]
    | cons b t2 =>
      cases t2 with
      | nil => simp [Like, hs, dsPut_dsPut_same]
      | cons c t3 => simp [Like, hs]

/-- C8: a photoid parameter that does not split on "." into exactly two
segments makes `Like`, `Unlike` and `SetPhotoComments` reply ok without any
datastore mutation. -/
theorem malformed_photoid_noop (ls : LikeStore) (cs : CommentStore)
    (callerID pid textParam : String) (tod : Int)
    (h : (splitOnDot pid).length ≠ 2) :
    Like ls callerID pid = (ls, okStatus) ∧
    Unlike ls callerID pid = (ls, okStatus) ∧
    SetPhotoComments cs callerID pid textParam tod = (cs, okStatus) := by
  cases hs : splitOnDot pid with
  | nil =>
      exact ⟨by simp [Like, hs], by simp [Unlike, hs], by simp [SetPhotoComments, hs]⟩
  | cons a t =>
    cases t with
    | nil =>
        exact ⟨by simp [Like, hs], by simp [Unlike, hs], by simp [SetPhotoComments, hs]⟩
    | cons b t2 =>
      cases t2 with
      | nil => exact absurd (by simp [hs] : (splitOnDot pid).length = 2) h
      | cons c t3 =>
          exact ⟨by simp [Like, hs], by simp [Unlike, hs], by simp [SetPhotoComments, hs]⟩

/-- C8 witness: the photoid "noDotHere" splits into one segment; all three
handlers leave their stores untouched and reply ok. -/
theorem malformed_photoid_noop_witness :
    Like ([] : LikeStore) "alice" "noDotHere" = (([] : LikeStore), okStatus) ∧
    Unlike ([] : LikeStore) "alice" "noDotHere" = (([] : LikeStore), okStatus) ∧
    SetPhotoComments ([] : CommentStore) "alice" "noDotHere" "hi" 99
      = (([] : CommentStore), okStatus) :=
  malformed_photoid_noop [] [] "alice" "noDotHere" "hi" 99 (by decide)

/-- C6: when no stored User has Email equal to `email`, `Follow` runs the
intent-recording transaction: it appends `email` to the caller's
`IWantToFollow` exactly when it is not already present — the written record
differs from the caller's old record in that one field only — and otherwise
leaves the store untouched. -/
theorem Follow_records_intent (s : UserStore) (callerID email : String) (uA : User)
    (hemail : ∀ e ∈ s, e.2.Email ≠ email)
    (hA : dsGet s callerID = some uA) :
    (email ∉ uA.IWantToFollow →
        Follow s callerID email
          = dsPut s callerID { uA with IWantToFollow := uA.IWantToFollow ++ [email] }) ∧
    (email ∈ uA.IWantToFollow → Follow s callerID email = s) := by
  have hkeys : s.filter (fun e => e.2.Email == email) = [] := by
    rw [List.filter_eq_nil_iff]
    intro e he
    simp [hemail e he]
  constructor
  · intro hmem
    have hu : uniqueP uA.IWantToFollow email = true := (uniqueP_eq_true_iff _ _).2 hmem
    simp [Follow, hkeys, findUser, hA, hu]
  · intro hmem
    have hu : uniqueP uA.IWantToFollow email = false := (uniqueP_eq_false_iff _ _).2 hmem
    simp [Follow, hkeys, findUser, hA, hu]

/-- C6 witness: nobody in the store has carol's address, so following her by
email records the pending intent on alice's record. -/
theorem Follow_records_intent_witness :
    Follow selfStore "alice" "carol@example.com"
      = dsPut selfStore "alice"
          { aliceU with IWantToFollow := aliceU.IWantToFollow ++ ["carol@example.com"] } :=
  (Follow_records_intent selfStore "alice" "carol@example.com" aliceU
      (by decide) (by decide)).1 (by decide)

/-- C7: duplicate-freedom of `IFollow`/`FollowsMe` is an invariant of
`followById` (the one operation in `server.go` that mutates those lists):
if every stored record's two lists are duplicate-free before the call, they
are afterwards, because each append is guarded by the `uniqueP` membership
check and appends only absent elements. -/
theorem followById_preserves_nodup (s : UserStore) (a b : String)
    (h : storeListsNodup s) : storeListsNodup (followById s a b).1 := by
  cases ha : dsGet s a with
  | none => simpa [followById, ha] using h
  | some user =>
    cases hb : dsGet s b with
    | none => simpa [followById, ha, hb] using h
    | some followed =>
      have huser := h _ (mem_of_dsGet ha)
      have hfol := h _ (mem_of_dsGet hb)
      have h1 : storeListsNodup (if uniqueP user.IFollow b then
          dsPut s a { user with IFollow := user.IFollow ++ [b] } else s) := by
        by_cases hu : uniqueP user.IFollow b = true
        · rw [if_pos hu]
          exact storeListsNodup_dsPut h
            ⟨nodup_append_singleton ((uniqueP_eq_true_iff _ _).1 hu) huser.1, huser.2⟩
        · rw [if_neg hu]
          exact h
      have h2 : storeListsNodup (if uniqueP followed.FollowsMe a then
          dsPut (if uniqueP user.IFollow b then
              dsPut s a { user with IFollow := user.IFollow ++ [b] } else s)
            b { followed with FollowsMe := followed.FollowsMe ++ [a] }
          else (if uniqueP user.IFollow b then
              dsPut s a { user with IFollow := user.IFollow ++ [b] } else s)) := by
        by_cases hf : uniqueP followed.FollowsMe a = true
        · rw [if_pos hf]
          exact storeListsNodup_dsPut h1
            ⟨hfol.1, nodup_append_singleton ((uniqueP_eq_true_iff _ _).1 hf) hfol.2⟩
        · rw [if_neg hf]
          exact h1
      simpa [followById, ha, hb] using h2

/-- C7 witness: the invariant holds across a concrete call on duplicate-free
records. -/
theorem followById_preserves_nodup_witness :
    storeListsNodup (followById pairStore "alice" "bob").1 :=
  followById_preserves_nodup pairStore "alice" "bob" (by decide)

theorem count_map_pair (keys : List String) (uid k : String) :
    ((keys.map (fun key => (key, uid))).count (k, uid)) = keys.count k := by
  induction keys with
  | nil => simp
  | cons a t ih => by_cases h : a = k <;> simp [List.count_cons, h, ih]

/-- C5: on a store whose keys are distinct (datastore keys are unique),
`findFollows` run on the successful membership query enqueues exactly one
deferred `followById(matchedKey, userID)` task for each stored user whose
`IWantToFollow` contains the email, and every enqueued task is of that form
for some matching user; when the query itself fails, `findFollows` returns
the wrapped error — and its task list, never built, is empty. -/
theorem findFollows_fanout (s : UserStore) (email userID err : String)
    (hnd : (s.map (fun e => e.1)).Nodup) :
    findFollows (Except.error err) userID
        = Except.error ( "findFollows: GetAll " ++ err) ∧
    ∃ tasks,
      findFollows (Except.ok (queryIWantToFollow s email)) userID = Except.ok tasks ∧
      (∀ k u, (k, u) ∈ s → email ∈ u.IWantToFollow → tasks.count (k, userID) = 1) ∧
      (∀ t ∈ tasks, t.2 = userID ∧ ∃ u, (t.1, u) ∈ s ∧ email ∈ u.IWantToFollow) := by
  refine ⟨rfl, (queryIWantToFollow s email).map (fun key => (key, userID)), rfl, ?_, ?_⟩
  · intro k u hmem hemail
    have hkeys_nodup : (queryIWantToFollow s email).Nodup := by
      unfold queryIWantToFollow
      exact hnd.sublist ((List.filter_sublist s).map (fun e => e.1))
    have hk : k ∈ queryIWantToFollow s email := by
      unfold queryIWantToFollow
      exact List.mem_map_of_mem _
        (List.mem_filter.2 ⟨hmem, by simpa [List.elem_iff] using hemail⟩)
    rw [count_map_pair]
    exact List.count_eq_one_of_mem hkeys_nodup hk
  · intro t ht
    obtain ⟨k, hk, rfl⟩ := List.mem_map.1 ht
    refine ⟨rfl, ?_⟩
    unfold queryIWantToFollow at hk
    obtain ⟨e, he, rfl⟩ := List.mem_map.1 hk
    have hef := List.mem_filter.1 he
    exact ⟨e.2, hef.1, by simpa [List.elem_iff] using hef.2⟩

/-- Fixture: a user with a pending wish to follow dave's address. -/
def carolU : User := { UserID := "carol", DisplayName := "Carol", Email := "carol@example.com",
                       FollowsMe := [], IFollow := [],
                       IWantToFollow := ["dave@example.com"] }

/-- Fixture: a store where carol (and nobody else) wants to follow dave. -/
def fanoutStore : UserStore := [( "alice", aliceU), ( "carol", carolU)]

/-- C5 witness: the fan-out at a concrete store where one of two users has
the pending intent. -/
theorem findFollows_fanout_witness :
    findFollows (Except.error "boom") "dave"
        = Except.error ( "findFollows: GetAll " ++ "boom") ∧
    ∃ tasks,
      findFollows (Except.ok (queryIWantToFollow fanoutStore "dave@example.com")) "dave"
          = Except.ok tasks ∧
      (∀ k u, (k, u) ∈ fanoutStore → "dave@example.com" ∈ u.IWantToFollow →
          tasks.count (k, "dave") = 1) ∧
      (∀ t ∈ tasks, t.2 = "dave" ∧ ∃ u, (t.1, u) ∈ fanoutStore ∧
          "dave@example.com" ∈ u.IWantToFollow) :=
  findFollows_fanout fanoutStore "dave@example.com" "dave" "boom" (by decide)

end Abelana
